import Mathlib

/-!
Shallow embedding of the lifestats.me backend (Python / FastAPI / SQLModel),
covering the pieces exercised by the aggregation engine and the goal and
entry CRUD layer:

  * `src/backend/app/models.py`    — record types (`MetricEntry`, `Goal`,
    `UserMetricsConfig`); the database is modelled as lists of rows.
  * `src/backend/app/crud.py`      — `get_user_metrics`, `create_goal`,
    `upsert_goal`, `delete_metric_entry`, `get_user_metrics_config_active`.
  * `src/backend/app/routes/metrics.py` — the aggregation endpoint
    `read_metrics`, plus `delete_entry`.
  * `src/backend/app/routes/goals.py`   — `set_goal` (thin wrapper over
    `upsert_goal`).

Modelling conventions:
  * Python `datetime` values are modelled as a calendar day number (an
    integer; the epoch is chosen so that `day ≡ 0 [ZMOD 7]` is a Monday,
    matching `date.weekday()` with Monday = 0) together with the seconds
    elapsed within that day.  `datetime.date()` projects the day number;
    `timedelta(days = k)` shifts the day number by `k` and keeps the
    time of day.  Comparison is lexicographic, as for real instants.
  * `date.day` (the 1-based day of month) is not derivable from a bare
    day number, so the day-of-month of `now` is passed to the aggregation
    as an extra input `dom`; Python guarantees `1 ≤ dom ≤ 31`, which
    appears as a hypothesis where it matters.
  * Python floats are modelled as `ℚ` (exact arithmetic).
  * Python dicts keyed by metric key are modelled as association lists;
    a dict lookup takes the LAST binding (Python dict insertion
    overwrites), i.e. `List.lookup` on the reversed list.
  * Stateful SQLModel sessions are modelled by explicit state passing:
    each endpoint is a function `DB → result × DB`.
-/

namespace LifeStats

/-- A `datetime.datetime` instant: calendar day number plus seconds within
the day.  Epoch convention: `day % 7 = 0` is a Monday. -/
structure DateTime where
  day : Int
  sec : Nat
  deriving DecidableEq, Repr

/-- `datetime.date()` — the calendar day of an instant. -/
def DateTime.date (t : DateTime) : Int := t.day

/-- `t1 <= t2` on instants (lexicographic: day, then time of day). -/
def DateTime.leb (a b : DateTime) : Bool :=
  a.day < b.day || (a.day == b.day && a.sec ≤ b.sec)

/-- `timedelta(days = k)` subtracted from an instant (`now - timedelta(days=k)`). -/
def DateTime.subDays (t : DateTime) (k : Int) : DateTime := ⟨t.day - k, t.sec⟩

/-- `datetime.combine(d, datetime.min.time())` — midnight at the start of day `d`. -/
def midnight (d : Int) : DateTime := ⟨d, 0⟩

/-- `date.weekday()` — Monday = 0 .. Sunday = 6, via the epoch convention. -/
def weekdayOf (d : Int) : Int := d % 7

/-- Row of table `metricentry` (`models.MetricEntry`). -/
structure MetricEntry where
  id : Nat
  user_id : Nat
  metric_key : String
  value : ℚ
  timestamp : DateTime
  deriving DecidableEq, Repr

/-- Row of table `goal` (`models.Goal`). -/
structure Goal where
  id : Nat
  user_id : Nat
  metric_key : String
  target_value : ℚ
  created_at : DateTime
  deriving DecidableEq, Repr

/-- Row of table `user_metrics_config` (`models.UserMetricsConfig`);
only the fields the aggregation reads are kept. -/
structure UserMetricsConfig where
  id : Nat
  user_id : Nat
  metric_key : String
  type : String
  goal : Option ℚ
  is_active : Bool
  deriving DecidableEq, Repr

/-- The persistent store: the tables touched by the modelled endpoints. -/
structure DB where
  entries : List MetricEntry
  goals : List Goal
  configs : List UserMetricsConfig
  deriving DecidableEq, Repr

/-- Python-dict lookup on an association list built by iterated insertion:
the binding inserted last wins. -/
def dget {α : Type} (pairs : List (String × α)) (k : String) : Option α :=
  pairs.reverse.lookup k

/-! ## crud.py -/

/-- Ordering of entries by timestamp, for `order_by(MetricEntry.timestamp)`. -/
def tsLe (a b : MetricEntry) : Prop := DateTime.leb a.timestamp b.timestamp = true

instance : DecidableRel tsLe := fun _ _ => instDecidableEqBool _ _

/-- `crud.get_user_metrics(session, user_id, start_date, end_date)`:
select entries of the user with `timestamp >= start_date` and
`timestamp <= end_date`, ordered by timestamp. -/
def get_user_metrics (entries : List MetricEntry) (user_id : Nat)
    (start_date end_date : DateTime) : List MetricEntry :=
  (entries.filter (fun e =>
      e.user_id == user_id
        && DateTime.leb start_date e.timestamp
        && DateTime.leb e.timestamp end_date)).insertionSort tsLe

/-- `crud.get_user_metrics_config_active(session, user_id)`. -/
def get_user_metrics_config_active (db : DB) (user_id : Nat) :
    List UserMetricsConfig :=
  db.configs.filter (fun c => c.user_id == user_id && c.is_active)

/-- Fresh primary key for a new `goal` row (autoincrement). -/
def freshGoalId (goals : List Goal) : Nat :=
  goals.foldl (fun m g => max m (g.id + 1)) 0

/-- `crud.create_goal(session, user_id, metric_key, target_value)`:
insert a new goal row. -/
def create_goal (user_id : Nat) (metric_key : String) (target_value : ℚ)
    (now : DateTime) (db : DB) : Goal × DB :=
  let g : Goal := ⟨freshGoalId db.goals, user_id, metric_key, target_value, now⟩
  (g, { db with goals := db.goals ++ [g] })

/-- In-place update of the first list element satisfying `p` (the SQLModel
session mutates the selected row and commits). -/
def updateFirst {α : Type} (p : α → Bool) (f : α → α) : List α → List α
  | [] => []
  | a :: as' => if p a then f a :: as' else a :: updateFirst p f as'

/-- `crud.upsert_goal(session, user_id, metric_key, target_value)`:
if a goal row for (user, key) exists, overwrite its `target_value` and
`created_at` in place; otherwise insert a new row. -/
def upsert_goal (user_id : Nat) (metric_key : String) (target_value : ℚ)
    (now : DateTime) (db : DB) : Goal × DB :=
  match db.goals.find? (fun g => g.user_id == user_id && g.metric_key == metric_key) with
  | some g =>
      let goals' := updateFirst
        (fun g => g.user_id == user_id && g.metric_key == metric_key)
        (fun g => { g with target_value := target_value, created_at := now })
        db.goals
      ({ g with target_value := target_value, created_at := now },
       { db with goals := goals' })
  | none => create_goal user_id metric_key target_value now db

/-- `crud.delete_metric_entry(session, user_id, entry_id)`: select the first
entry with this id owned by the user; delete it if found, else do nothing. -/
def delete_metric_entry (user_id : Nat) (entry_id : Nat) (db : DB) : Unit × DB :=
  match db.entries.find? (fun e => e.id == entry_id && e.user_id == user_id) with
  | some _ =>
      ((), { db with entries :=
        db.entries.eraseP (fun e => e.id == entry_id && e.user_id == user_id) })
  | none => ((), db)

/-! ## routes/metrics.py — the aggregation endpoint `read_metrics` -/

/-- The five fixed aggregation periods. -/
inductive Period
  | daily | weekly | monthly | quarterly | yearly
  deriving DecidableEq, Repr

/-- `period_days` — nominal period length in days. -/
def period_days : Period → Int
  | .daily => 1
  | .weekly => 7
  | .monthly => 30
  | .quarterly => 90
  | .yearly => 365

/-- Start instant of each period (`periods` dict in `read_metrics`):
daily = start of today, weekly = midnight of the most recent Monday,
monthly/quarterly/yearly = `now - timedelta(days = 30/90/365)`. -/
def periodStart (now : DateTime) : Period → DateTime
  | .daily => midnight now.day
  | .weekly => midnight (now.day - weekdayOf now.day)
  | .monthly => now.subDays 30
  | .quarterly => now.subDays 90
  | .yearly => now.subDays 365

/-- End instant handed to the entry fetch: `daily_end` (start of tomorrow)
for daily, `now` for the other periods. -/
def fetchEnd (now : DateTime) : Period → DateTime
  | .daily => midnight (now.day + 1)
  | _ => now

/-- The entries fetched for one period by `read_metrics`. -/
def periodEntries (db : DB) (user_id : Nat) (now : DateTime) (p : Period) :
    List MetricEntry :=
  get_user_metrics db.entries user_id (periodStart now p) (fetchEnd now p)

/-- One step of the `for entry in entries` loop that accumulates
`sums[key] += entry.value` when `key in sums`. -/
def addEntry (sums : List (String × ℚ)) (e : MetricEntry) : List (String × ℚ) :=
  if sums.any (fun pr => pr.1 == e.metric_key) then
    sums.map (fun pr => if pr.1 == e.metric_key then (pr.1, pr.2 + e.value) else pr)
  else sums

/-- `sums = {key: 0.0 for key in metric_keys}` followed by the accumulation
loop over the period's entries. -/
def periodSums (metric_keys : List String) (entries : List MetricEntry) :
    List (String × ℚ) :=
  entries.foldl addEntry (metric_keys.map (fun k => (k, (0 : ℚ))))

/-- `days_passed` — elapsed days of the period as computed by the route:
weekly = `today.weekday() + 1`; monthly = `today.day` (the input `dom`);
quarterly/yearly = `(now.date() - (now - timedelta(days=N)).date()).days + 1`;
daily = 1. -/
def days_passed (now : DateTime) (dom : Int) : Period → Int
  | .weekly => weekdayOf now.day + 1
  | .monthly => dom
  | .quarterly => (now.date - (now.subDays 90).date) + 1
  | .yearly => (now.date - (now.subDays 365).date) + 1
  | .daily => 1

/-- `days = min(period_days.get(name, 1), days_passed)` — the averaging
divisor, clamped to the nominal period length. -/
def elapsedDays (now : DateTime) (dom : Int) (p : Period) : Int :=
  min (period_days p) (days_passed now dom p)

/-- `avg_per_day[key] = (total / days) if total != 0 else (None if not
entries else 0.0 / days)` — the value stored for one key. -/
def avgFor (sums : List (String × ℚ)) (entries : List MetricEntry)
    (days : Int) (key : String) : Option ℚ :=
  let total := (dget sums key).getD 0
  if total ≠ 0 then some (total / (days : ℚ))
  else if entries.isEmpty then none else some (0 / (days : ℚ))

/-- The `avg_per_day` table over all configured keys. -/
def avgPerDay (metric_keys : List String) (sums : List (String × ℚ))
    (entries : List MetricEntry) (days : Int) : List (String × Option ℚ) :=
  metric_keys.map (fun key => (key, avgFor sums entries days key))

/-- The list `dates` of calendar days enumerated for a period:
weekly = Monday..Sunday of the current week; daily = just today; other
periods = the nominal-length window going backward from today inclusive
(`[(today - timedelta(days=i)) for i in reversed(range(period_days[name]))]`). -/
def periodDates (now : DateTime) : Period → List Int
  | .weekly => (List.range 7).map (fun (i : Nat) => (now.day - weekdayOf now.day) + (i : Int))
  | .daily => [now.day]
  | p => ((List.range (period_days p).toNat).reverse).map (fun (i : Nat) => now.day - (i : Int))

/-- `sum(e.value for e in entries if e.metric_key == key and
e.timestamp.date() == day)`. -/
def daySum (entries : List MetricEntry) (key : String) (day : Int) : ℚ :=
  ((entries.filter (fun e => e.metric_key == key && e.timestamp.date == day)).map
    (fun e => e.value)).sum

/-- Weekly only: `daily_totals[key]`, the per-day raw sums over the
enumerated dates. -/
def dailyTotals (metric_keys : List String) (entries : List MetricEntry)
    (dates : List Int) : List (String × List ℚ) :=
  metric_keys.map (fun key => (key, dates.map (fun day => daySum entries key day)))

/-- Whether a day's total meets the goal: for `"max"`-type metrics the goal
is met when `total <= target`, otherwise (min goals) when `total >= target`. -/
def goalMet (metric_type : String) (total target : ℚ) : Bool :=
  if metric_type == "max" then decide (total ≤ target) else decide (target ≤ total)

/-- `goal_counts[key]`: 0 when the key has no effective target in
`goal_map`, else the number of enumerated days whose total meets the goal
under the key's type (`type_map.get(key, "min")`). -/
def goalCountFor (goal_map : List (String × ℚ)) (type_map : List (String × String))
    (entries : List MetricEntry) (dates : List Int) (key : String) : Nat :=
  match dget goal_map key with
  | none => 0
  | some target =>
      let metric_type := (dget type_map key).getD "min"
      dates.countP (fun day => goalMet metric_type (daySum entries key day) target)

/-- The `goal_counts` table over all configured keys. -/
def goalCounts (metric_keys : List String) (goal_map : List (String × ℚ))
    (type_map : List (String × String)) (entries : List MetricEntry)
    (dates : List Int) : List (String × Nat) :=
  metric_keys.map (fun key =>
    (key, goalCountFor goal_map type_map entries dates key))

/-- The aggregation computed for one period (`aggregated[name]` in the
route): averages, weekly daily totals, goal-reached counts. -/
structure PeriodAgg where
  average_values : List (String × Option ℚ)
  daily_totals : Option (List (String × List ℚ))
  goalReached : List (String × Nat)
  deriving DecidableEq, Repr

/-- Body of the `for name, start in periods.items()` loop of
`read_metrics`, for one period. -/
def aggregatePeriod (metric_keys : List String) (goal_map : List (String × ℚ))
    (type_map : List (String × String)) (db : DB) (user_id : Nat)
    (now : DateTime) (dom : Int) (p : Period) : PeriodAgg :=
  let entries := periodEntries db user_id now p
  let sums := periodSums metric_keys entries
  let days := elapsedDays now dom p
  let avg := avgPerDay metric_keys sums entries days
  let dates := periodDates now p
  { average_values := avg
    daily_totals :=
      match p with
      | .weekly => some (dailyTotals metric_keys entries dates)
      | _ => none
    goalReached := goalCounts metric_keys goal_map type_map entries dates }

/-- The response of `GET /api/metrics`: one aggregation per period. -/
def Aggregated : Type := Period → PeriodAgg

/-- `metric_keys = [config.metric_key for config in user_configs]`. -/
def activeKeys (db : DB) (user_id : Nat) : List String :=
  (get_user_metrics_config_active db user_id).map (fun c => c.metric_key)

/-- `goal_map = {config.metric_key: config.goal for config in user_configs
if config.goal is not None}`. -/
def goal_map_of (db : DB) (user_id : Nat) : List (String × ℚ) :=
  (get_user_metrics_config_active db user_id).filterMap
    (fun c => (c.goal).map (fun g => (c.metric_key, g)))

/-- `type_map = {config.metric_key: config.type for config in user_configs}`. -/
def type_map_of (db : DB) (user_id : Nat) : List (String × String) :=
  (get_user_metrics_config_active db user_id).map
    (fun c => (c.metric_key, c.type))

/-- `read_metrics` endpoint: fetch the user's active metric configuration,
derive `metric_keys`, `goal_map` (keys with a non-null `goal`) and
`type_map`, then aggregate every period.  The session only executes
selects, so the returned store is the input store. -/
def read_metrics (user_id : Nat) (now : DateTime) (dom : Int) (db : DB) :
    Aggregated × DB :=
  (fun p => aggregatePeriod (activeKeys db user_id) (goal_map_of db user_id)
    (type_map_of db user_id) db user_id now dom p, db)

/-- `DELETE /api/metrics/{entry_id}` (`routes/metrics.delete_entry`):
delegate to `crud.delete_metric_entry` and report success unconditionally. -/
def delete_entry (user_id : Nat) (entry_id : Nat) (db : DB) : String × DB :=
  let r := delete_metric_entry user_id entry_id db
  ("success", r.2)

/-! ## Helper lemmas -/

/-- The fetched entry list is a permutation of the timestamp-window filter
of the store. -/
lemma get_user_metrics_perm (entries : List MetricEntry) (user_id : Nat)
    (s en : DateTime) :
    List.Perm (get_user_metrics entries user_id s en)
      (entries.filter (fun e =>
        e.user_id == user_id
          && DateTime.leb s e.timestamp
          && DateTime.leb e.timestamp en)) :=
  List.perm_insertionSort tsLe _

/-- Membership in the fetched entry list: the entry is in the store, owned
by the user, and its timestamp lies in the closed window `[s, en]`. -/
lemma mem_get_user_metrics {entries : List MetricEntry} {user_id : Nat}
    {s en : DateTime} {e : MetricEntry} :
    e ∈ get_user_metrics entries user_id s en ↔
      e ∈ entries ∧ e.user_id = user_id
        ∧ DateTime.leb s e.timestamp = true
        ∧ DateTime.leb e.timestamp en = true := by
  rw [(get_user_metrics_perm entries user_id s en).mem_iff, List.mem_filter]
  simp [and_assoc]

/-! ## C2 — entry-fetch window -/

/-- C2 (as stated, refuted): the claim says an entry with timestamp exactly
equal to the fetch window's end is excluded; in the code the filter is
`timestamp <= end_date`, so such an entry is returned.  Concrete input: one
stored entry of user 7 timestamped exactly at the window end. -/
theorem C2_counterexample :
    (⟨1, 7, "water", 1, ⟨5, 0⟩⟩ : MetricEntry) ∈
        get_user_metrics [⟨1, 7, "water", 1, ⟨5, 0⟩⟩] 7 ⟨4, 0⟩ ⟨5, 0⟩
      ∧ (⟨1, 7, "water", 1, ⟨5, 0⟩⟩ : MetricEntry).timestamp = ⟨5, 0⟩ := by
  constructor
  · decide
  · rfl

/-- C2 (amended): fetching entries for aggregation returns exactly the
entries of the user whose timestamp lies in the CLOSED interval
`[start, end]`: a returned entry satisfies `start <= timestamp <= end`,
and in particular a stored entry of the user with timestamp exactly equal
to `end` is included. -/
theorem C2_fetch_window (entries : List MetricEntry) (user_id : Nat)
    (s en : DateTime) (e : MetricEntry) :
    (e ∈ get_user_metrics entries user_id s en ↔
        e ∈ entries ∧ e.user_id = user_id
          ∧ DateTime.leb s e.timestamp = true
          ∧ DateTime.leb e.timestamp en = true)
      ∧ (e ∈ entries → e.user_id = user_id →
          DateTime.leb s e.timestamp = true → e.timestamp = en →
          e ∈ get_user_metrics entries user_id s en) := by
  refine ⟨mem_get_user_metrics, fun h1 h2 h3 h4 => ?_⟩
  refine mem_get_user_metrics.mpr ⟨h1, h2, h3, ?_⟩
  subst h4
  simp [DateTime.leb]

/-- C2 witness: the amended theorem applied at a concrete store and window,
with the entry timestamped exactly at the window end. -/
theorem C2_fetch_window_witness :
    (⟨2, 9, "sleep", 1, ⟨8, 0⟩⟩ : MetricEntry) ∈
      get_user_metrics [⟨2, 9, "sleep", 1, ⟨8, 0⟩⟩] 9 ⟨6, 0⟩ ⟨8, 0⟩ :=
  (C2_fetch_window [⟨2, 9, "sleep", 1, ⟨8, 0⟩⟩] 9 ⟨6, 0⟩ ⟨8, 0⟩
      ⟨2, 9, "sleep", 1, ⟨8, 0⟩⟩).2
    (by decide) (by decide) (by decide) (by decide)

/-! ## C4 — the averaging divisor -/

/-- C4: for every `now` (with day-of-month `dom`, which Python guarantees
to be at least 1), the averaging divisor equals the clamp to the nominal
period length of: `weekday(today) + 1` for weekly, the day-of-month for
monthly, `(today - periodStartDate).days + 1` for quarterly and yearly,
and 1 for daily; and it never exceeds the nominal length and never drops
below 1. -/
theorem C4_elapsed_days (now : DateTime) (dom : Int) (hdom : 1 ≤ dom)
    (p : Period) :
    (elapsedDays now dom p =
        min (period_days p)
          (match p with
           | .weekly => weekdayOf now.day + 1
           | .monthly => dom
           | .quarterly => (now.date - (now.subDays 90).date) + 1
           | .yearly => (now.date - (now.subDays 365).date) + 1
           | .daily => 1))
      ∧ 1 ≤ elapsedDays now dom p
      ∧ elapsedDays now dom p ≤ period_days p := by
  have hw0 : 0 ≤ weekdayOf now.day := Int.emod_nonneg _ (by norm_num)
  have hw7 : weekdayOf now.day < 7 := Int.emod_lt_of_pos _ (by norm_num)
  cases p <;>
    simp only [elapsedDays, days_passed, period_days, DateTime.date,
      DateTime.subDays, Int.min_def] <;>
    (repeat' constructor) <;> split <;> omega

/-- C4 witness: the divisor bounds at a concrete instant (a Thursday,
day-of-month 15). -/
theorem C4_elapsed_days_witness :
    1 ≤ elapsedDays ⟨3, 100⟩ 15 .monthly
      ∧ elapsedDays ⟨3, 100⟩ 15 .monthly ≤ period_days .monthly :=
  ⟨(C4_elapsed_days ⟨3, 100⟩ 15 (by decide) .monthly).2.1,
   (C4_elapsed_days ⟨3, 100⟩ 15 (by decide) .monthly).2.2⟩

/-! ## C6 — the enumerated calendar days -/

/-- Elements of a backward day window `[(base - i) for i in reversed(range n)]`. -/
lemma backWindow_getD (base : Int) (n : Nat) (j : Nat) (hj : j < n) :
    (((List.range n).reverse).map (fun (i : Nat) => base - (i : Int))).getD j 0 =
      base - ((n : Int) - 1) + j := by
  have hlen : (((List.range n).reverse).map (fun (i : Nat) => base - (i : Int))).length = n := by
    simp
  rw [List.getD_eq_getElem _ 0 (by simpa [hlen] using hj)]
  rw [List.getElem_map]
  rw [List.getElem_reverse]
  rw [List.getElem_range]
  simp only [List.length_range]
  omega

/-- Membership in a backward day window. -/
lemma backWindow_mem (base : Int) (n : Nat) (d : Int) :
    d ∈ ((List.range n).reverse).map (fun (i : Nat) => base - (i : Int)) ↔
      base - ((n : Int) - 1) ≤ d ∧ d ≤ base := by
  simp only [List.mem_map, List.mem_reverse, List.mem_range]
  constructor
  · rintro ⟨i, hi, rfl⟩
    omega
  · intro ⟨h1, h2⟩
    refine ⟨(base - d).toNat, by omega, by omega⟩

/-- C6: the calendar days enumerated for goal-reached counting are: for
weekly the 7 consecutive days starting at the current week's Monday (the
day at index `i` is Monday + `i`); for daily just today; and for
monthly/quarterly/yearly a window of exactly the nominal period length
(30, 90, 365 days) ending at today inclusive — its length does not depend
on how much of the period has elapsed. -/
theorem C6_period_dates (now : DateTime) :
    periodDates now .daily = [now.day]
      ∧ weekdayOf (now.day - weekdayOf now.day) = 0
      ∧ (periodDates now .weekly).length = 7
      ∧ (∀ i : Nat, i < 7 →
          (periodDates now .weekly).getD i 0 = (now.day - weekdayOf now.day) + i)
      ∧ (∀ p : Period, p = .monthly ∨ p = .quarterly ∨ p = .yearly →
          (periodDates now p).length = (period_days p).toNat
            ∧ (∀ j : Nat, j < (period_days p).toNat →
                (periodDates now p).getD j 0 = now.day - (period_days p - 1) + j)
            ∧ (∀ d : Int, d ∈ periodDates now p ↔
                now.day - (period_days p - 1) ≤ d ∧ d ≤ now.day)) := by
  refine ⟨rfl, ?_, by simp [periodDates], ?_, ?_⟩
  · simp only [weekdayOf]; omega
  · intro i hi
    interval_cases i <;> simp [periodDates, List.range_succ]
  · rintro p (rfl | rfl | rfl) <;>
      refine ⟨by simp [periodDates, period_days], fun j hj => ?_, fun d => ?_⟩
    · have h := backWindow_getD now.day 30 j hj
      rw [show periodDates now .monthly =
        ((List.range 30).reverse).map (fun (i : Nat) => now.day - (i : Int)) from rfl, h]
      simp [period_days]
    · have h := backWindow_mem now.day 30 d
      rw [show periodDates now .monthly =
        ((List.range 30).reverse).map (fun (i : Nat) => now.day - (i : Int)) from rfl, h]
      simp [period_days]
    · have h := backWindow_getD now.day 90 j hj
      rw [show periodDates now .quarterly =
        ((List.range 90).reverse).map (fun (i : Nat) => now.day - (i : Int)) from rfl, h]
      simp [period_days]
    · have h := backWindow_mem now.day 90 d
      rw [show periodDates now .quarterly =
        ((List.range 90).reverse).map (fun (i : Nat) => now.day - (i : Int)) from rfl, h]
      simp [period_days]
    · have h := backWindow_getD now.day 365 j hj
      rw [show periodDates now .yearly =
        ((List.range 365).reverse).map (fun (i : Nat) => now.day - (i : Int)) from rfl, h]
      simp [period_days]
    · have h := backWindow_mem now.day 365 d
      rw [show periodDates now .yearly =
        ((List.range 365).reverse).map (fun (i : Nat) => now.day - (i : Int)) from rfl, h]
      simp [period_days]

/-- C6 witness: window facts at a concrete instant — the weekly row starts
at the Monday of the current week and the monthly window has 30 days. -/
theorem C6_period_dates_witness :
    (periodDates ⟨10, 5⟩ .weekly).getD 2 0 = ((10 : Int) - weekdayOf 10) + 2
      ∧ (periodDates ⟨10, 5⟩ .monthly).length = (period_days .monthly).toNat :=
  ⟨(C6_period_dates ⟨10, 5⟩).2.2.2.1 2 (by decide),
   ((C6_period_dates ⟨10, 5⟩).2.2.2.2 .monthly (Or.inl rfl)).1⟩

/-! ## C8 — the aggregation is a pure read -/

/-- C8: for a fixed `now` and fixed underlying data, `read_metrics` leaves
the persisted store unchanged, and calling it a second time (on the store
the first call returned) yields an identical result — it is a pure
read-and-compute function of its inputs. -/
theorem C8_read_metrics_pure (user_id : Nat) (now : DateTime) (dom : Int)
    (db : DB) :
    (read_metrics user_id now dom db).2 = db
      ∧ (read_metrics user_id now dom ((read_metrics user_id now dom db).2)).1 =
          (read_metrics user_id now dom db).1 :=
  ⟨rfl, rfl⟩

/-! ## C10 — deleting a metric entry -/

/-- C10: the delete-entry endpoint always reports success; it never touches
the goal or configuration tables; when no stored entry has the requested id
and the caller as owner (in particular when the id belongs to another
user's entry) the entry table is unchanged; and when such an entry exists,
exactly the first (hence, with unique ids, the only) matching entry is
removed and the rest of the table is kept as is. -/
theorem C10_delete_entry (db : DB) (user_id entry_id : Nat) :
    (delete_entry user_id entry_id db).1 = "success"
      ∧ (delete_entry user_id entry_id db).2.goals = db.goals
      ∧ (delete_entry user_id entry_id db).2.configs = db.configs
      ∧ ((∀ e ∈ db.entries, ¬(e.id = entry_id ∧ e.user_id = user_id)) →
          (delete_entry user_id entry_id db).2 = db)
      ∧ ((∃ e ∈ db.entries, e.id = entry_id ∧ e.user_id = user_id) →
          ∃ l₁ e l₂, db.entries = l₁ ++ e :: l₂
            ∧ e.id = entry_id ∧ e.user_id = user_id
            ∧ (∀ b ∈ l₁, ¬(b.id = entry_id ∧ b.user_id = user_id))
            ∧ (delete_entry user_id entry_id db).2.entries = l₁ ++ l₂) := by
  cases hf : db.entries.find? (fun e => e.id == entry_id && e.user_id == user_id) with
  | none =>
      refine ⟨rfl, ?_, ?_, fun _ => ?_, fun ⟨e, he, h1, h2⟩ => ?_⟩ <;>
        simp only [delete_entry, delete_metric_entry, hf]
      have := List.find?_eq_none.mp hf e he
      simp [h1, h2] at this
  | some a =>
      have ha_mem := List.mem_of_find?_eq_some hf
      have ha_p := List.find?_some hf
      refine ⟨rfl, ?_, ?_, fun hnone => ?_, fun _ => ?_⟩ <;>
        simp only [delete_entry, delete_metric_entry, hf]
      · exact absurd (by simpa using ha_p) (by simpa using hnone a ha_mem)
      · obtain ⟨a', l₁, l₂, hl₁, hp', hsplit, herase⟩ :=
          @List.exists_of_eraseP MetricEntry
            (fun e => e.id == entry_id && e.user_id == user_id)
            db.entries a ha_mem ha_p
        have hp2 := hp'
        rw [Bool.and_eq_true, beq_iff_eq, beq_iff_eq] at hp2
        refine ⟨l₁, a', l₂, hsplit, hp2.1, hp2.2,
          fun b hb => by simpa using hl₁ b hb, by simpa using herase⟩

/-- C10 witness: at a concrete store where the requested id belongs to
another user, the endpoint reports success and leaves the store unchanged. -/
theorem C10_delete_entry_witness :
    (delete_entry 1 5 ⟨[⟨5, 2, "water", 1, ⟨0, 0⟩⟩], [], []⟩).1 = "success"
      ∧ (delete_entry 1 5 ⟨[⟨5, 2, "water", 1, ⟨0, 0⟩⟩], [], []⟩).2 =
          ⟨[⟨5, 2, "water", 1, ⟨0, 0⟩⟩], [], []⟩ :=
  ⟨(C10_delete_entry ⟨[⟨5, 2, "water", 1, ⟨0, 0⟩⟩], [], []⟩ 1 5).1,
   (C10_delete_entry ⟨[⟨5, 2, "water", 1, ⟨0, 0⟩⟩], [], []⟩ 1 5).2.2.2.1
     (by decide)⟩

/-! ## Characterizing the per-key dictionaries -/

/-- The sum of the values of the entries carrying a given metric key. -/
def sumKey (k : String) (l : List MetricEntry) : ℚ :=
  ((l.filter (fun e => e.metric_key == k)).map (fun e => e.value)).sum

lemma sumKey_nil (k : String) : sumKey k [] = 0 := rfl

lemma sumKey_cons (k : String) (e : MetricEntry) (t : List MetricEntry) :
    sumKey k (e :: t) = (if e.metric_key == k then e.value else 0) + sumKey k t := by
  simp only [sumKey, List.filter_cons]
  by_cases h : (e.metric_key == k) <;> simp [h]

/-- `lookup` on a keys-to-values map finds the mapped value. -/
lemma lookup_map_self {α : Type} (f : String → α) :
    ∀ (ks : List String) (k : String), k ∈ ks →
      (ks.map (fun x => (x, f x))).lookup k = some (f k)
  | [], k, hk => absurd hk (List.not_mem_nil k)
  | a :: t, k, hk => by
    simp only [List.map_cons, List.lookup_cons]
    split
    · next h => rw [show k = a from by simpa using h]
    · next h =>
      have hkt : k ∈ t := by
        rcases List.mem_cons.mp hk with rfl | ht
        · simp at h
        · exact ht
      exact lookup_map_self f t k hkt

/-- Python-dict lookup on a keys-to-values map finds the mapped value. -/
lemma dget_map_self {α : Type} (f : String → α) (ks : List String) (k : String)
    (hk : k ∈ ks) : dget (ks.map (fun x => (x, f x))) k = some (f k) := by
  rw [dget, ← List.map_reverse]
  exact lookup_map_self f ks.reverse k (by simpa using hk)

/-- The entry-accumulation loop over a keys-to-values table updates every
key by the entry's contribution. -/
lemma foldl_addEntry (ks : List String) :
    ∀ (l : List MetricEntry) (f : String → ℚ),
      l.foldl addEntry (ks.map (fun k => (k, f k))) =
        ks.map (fun k => (k, f k + sumKey k l))
  | [], f => by simp [sumKey_nil]
  | e :: t, f => by
    rw [List.foldl_cons]
    by_cases hmem : e.metric_key ∈ ks
    · have hany : (ks.map (fun k => (k, f k))).any
          (fun pr => pr.1 == e.metric_key) = true :=
        List.any_eq_true.mpr
          ⟨(e.metric_key, f e.metric_key), List.mem_map_of_mem _ hmem, by simp⟩
      have hstep : addEntry (ks.map (fun k => (k, f k))) e =
          ks.map (fun k => (k, f k + (if k == e.metric_key then e.value else 0))) := by
        simp only [addEntry, hany, if_true, List.map_map]
        apply List.map_congr_left
        intro k _
        by_cases h : k = e.metric_key
        · subst h; simp
        · simp [h]
      rw [hstep,
        foldl_addEntry ks t (fun k => f k + (if k == e.metric_key then e.value else 0))]
      apply List.map_congr_left
      intro k _
      rw [sumKey_cons]
      by_cases h : k = e.metric_key
      · subst h; simp [add_assoc]
      · have h1 : (k == e.metric_key) = false := by simpa using h
        have h2 : (e.metric_key == k) = false := by simpa using Ne.symm h
        simp [h1, h2, add_assoc]
    · have hany : (ks.map (fun k => (k, f k))).any
          (fun pr => pr.1 == e.metric_key) = false := by
        simp only [List.any_eq_false]
        intro pr hpr
        obtain ⟨k, hk, rfl⟩ := List.mem_map.mp hpr
        simp only [beq_eq_false_iff_ne, ne_eq]
        intro h
        exact hmem (eq_of_beq h ▸ hk)
      have hstep : addEntry (ks.map (fun k => (k, f k))) e =
          ks.map (fun k => (k, f k)) := by
        simp [addEntry, hany]
      rw [hstep, foldl_addEntry ks t f]
      apply List.map_congr_left
      intro k hk
      have hne : (e.metric_key == k) = false := by
        simp only [beq_eq_false_iff_ne, ne_eq]
        intro h
        exact hmem (by rwa [h])
      rw [sumKey_cons, hne]
      simp

/-- The sums table computed for a period maps every configured key to the
per-key sum of the period's entries. -/
lemma periodSums_eq (ks : List String) (l : List MetricEntry) :
    periodSums ks l = ks.map (fun k => (k, sumKey k l)) := by
  have h0 : (ks.map (fun k => (k, (0 : ℚ)))) =
      ks.map (fun k => (k, (fun _ : String => (0 : ℚ)) k)) := rfl
  rw [periodSums, h0, foldl_addEntry ks l (fun _ => 0)]
  simp

/-- Python-dict lookup of a configured key in the sums table. -/
lemma dget_periodSums (ks : List String) (l : List MetricEntry) (k : String)
    (hk : k ∈ ks) : dget (periodSums ks l) k = some (sumKey k l) := by
  rw [periodSums_eq]
  exact dget_map_self (fun k => sumKey k l) ks k hk

/-- `lookup` finds a present binding when keys are unique. -/
lemma lookup_eq_some_of_mem_of_nodup {α : Type} :
    ∀ {l : List (String × α)} {k : String} {v : α},
      (k, v) ∈ l → (l.map Prod.fst).Nodup → l.lookup k = some v
  | [], _, _, hmem, _ => absurd hmem (List.not_mem_nil _)
  | p :: t, k, v, hmem, hnd => by
    obtain ⟨pk, pv⟩ := p
    rcases List.mem_cons.mp hmem with heq | hmem'
    · cases heq
      simp
    · have hnd' : (∀ x : α, (pk, x) ∉ t) ∧ (t.map Prod.fst).Nodup := by
        simpa using hnd
      have hk : k ≠ pk := fun h => hnd'.1 v (h ▸ hmem')
      have hbeq : (k == pk) = false := by simpa using hk
      simpa [List.lookup_cons, hbeq] using
        lookup_eq_some_of_mem_of_nodup hmem' hnd'.2

/-- `lookup` misses when the key is bound nowhere. -/
lemma lookup_eq_none_of_not_mem_keys {α : Type} {l : List (String × α)}
    {k : String} (h : k ∉ l.map Prod.fst) : l.lookup k = none := by
  rw [List.lookup_eq_none_iff]
  intro p hp
  simp only [bne_iff_ne, ne_eq]
  intro hk
  exact h (hk.symm ▸ List.mem_map.mpr ⟨p, hp, rfl⟩)

/-- Python-dict lookup finds a present binding when keys are unique. -/
lemma dget_eq_some_of_mem_of_nodup {α : Type} {l : List (String × α)}
    {k : String} {v : α} (hmem : (k, v) ∈ l)
    (hnd : (l.map Prod.fst).Nodup) : dget l k = some v :=
  lookup_eq_some_of_mem_of_nodup (by simpa using hmem) (by simpa using hnd)

/-- Python-dict lookup misses when the key is bound nowhere. -/
lemma dget_eq_none_of_not_mem_keys {α : Type} {l : List (String × α)}
    {k : String} (h : k ∉ l.map Prod.fst) : dget l k = none :=
  lookup_eq_none_of_not_mem_keys (by simpa using h)

/-- The type map binds an active config's key to that config's type
(assuming the user's active keys are unique, which the config-creation
endpoint enforces). -/
lemma dget_type_map (db : DB) (user_id : Nat) (c : UserMetricsConfig)
    (hc : c ∈ get_user_metrics_config_active db user_id)
    (hnd : (activeKeys db user_id).Nodup) :
    dget (type_map_of db user_id) c.metric_key = some c.type := by
  refine dget_eq_some_of_mem_of_nodup ?_ ?_
  · exact List.mem_map_of_mem _ hc
  · have hkeys : (type_map_of db user_id).map Prod.fst = activeKeys db user_id := by
      simp [type_map_of, activeKeys, List.map_map, Function.comp]
    rw [hkeys]
    exact hnd

/-- The keys bound in the goal map form a sub-sequence of the active keys. -/
lemma goal_map_keys_sublist (db : DB) (user_id : Nat) :
    List.Sublist ((goal_map_of db user_id).map Prod.fst)
      (activeKeys db user_id) := by
  rw [goal_map_of, activeKeys]
  induction get_user_metrics_config_active db user_id with
  | nil => simp
  | cons a t ih =>
    rw [List.filterMap_cons]
    cases hg : a.goal with
    | none =>
        rw [List.map_cons]
        exact ih.cons _
    | some g =>
        simp only [Option.map_some', List.map_cons]
        exact ih.cons₂ _

/-- The goal map binds an active config's key to that config's goal when
the goal is set. -/
lemma dget_goal_map_some (db : DB) (user_id : Nat) (c : UserMetricsConfig)
    (t : ℚ) (hc : c ∈ get_user_metrics_config_active db user_id)
    (hnd : (activeKeys db user_id).Nodup) (hg : c.goal = some t) :
    dget (goal_map_of db user_id) c.metric_key = some t := by
  apply dget_eq_some_of_mem_of_nodup
  · exact List.mem_filterMap.mpr ⟨c, hc, by simp [hg]⟩
  · exact (goal_map_keys_sublist db user_id).nodup hnd

/-- The goal map binds nothing for an active config whose goal is unset. -/
lemma dget_goal_map_none (db : DB) (user_id : Nat) (c : UserMetricsConfig)
    (hc : c ∈ get_user_metrics_config_active db user_id)
    (hnd : (activeKeys db user_id).Nodup) (hg : c.goal = none) :
    dget (goal_map_of db user_id) c.metric_key = none := by
  apply dget_eq_none_of_not_mem_keys
  intro hmem
  obtain ⟨p, hp, hfst⟩ := List.mem_map.mp hmem
  obtain ⟨x, hx, hxp⟩ := List.mem_filterMap.mp hp
  cases hgx : x.goal with
  | none => rw [hgx] at hxp; simp at hxp
  | some gx =>
      rw [hgx] at hxp
      simp only [Option.map_some', Option.some.injEq] at hxp
      have hkey : x.metric_key = c.metric_key := by
        rw [← hxp] at hfst
        simpa using hfst
      have hxc : x = c := List.inj_on_of_nodup_map hnd hx hc hkey
      rw [hxc] at hgx
      rw [hg] at hgx
      cases hgx

/-! ## C5 — goal-reached comparison semantics -/

/-- The goal-reached table of a period, unfolded. -/
lemma goalReached_eq (db : DB) (user_id : Nat) (now : DateTime) (dom : Int)
    (p : Period) :
    ((read_metrics user_id now dom db).1 p).goalReached =
      goalCounts (activeKeys db user_id) (goal_map_of db user_id)
        (type_map_of db user_id) (periodEntries db user_id now p)
        (periodDates now p) := rfl

/-- C5: for an active metric (unique keys) with a set target, a day of the
enumerated period counts as goal-reached exactly when the day's total is at
most the target for a `"max"`-type metric, and exactly when the day's total
is at least the target for a `"min"`-type metric (equality counts in both
cases); an active metric with no target gets the count 0, not null. -/
theorem C5_goal_reached (db : DB) (user_id : Nat) (now : DateTime) (dom : Int)
    (p : Period) (c : UserMetricsConfig)
    (hc : c ∈ get_user_metrics_config_active db user_id)
    (hnd : (activeKeys db user_id).Nodup) :
    (c.goal = none →
        dget (((read_metrics user_id now dom db).1 p).goalReached) c.metric_key =
          some 0)
      ∧ (∀ target : ℚ, c.goal = some target → c.type = "max" →
          dget (((read_metrics user_id now dom db).1 p).goalReached) c.metric_key =
            some ((periodDates now p).countP (fun day =>
              decide (daySum (periodEntries db user_id now p) c.metric_key day ≤
                target))))
      ∧ (∀ target : ℚ, c.goal = some target → c.type = "min" →
          dget (((read_metrics user_id now dom db).1 p).goalReached) c.metric_key =
            some ((periodDates now p).countP (fun day =>
              decide (target ≤
                daySum (periodEntries db user_id now p) c.metric_key day)))) := by
  have hk : c.metric_key ∈ activeKeys db user_id := List.mem_map_of_mem _ hc
  have hdg := dget_map_self
    (goalCountFor (goal_map_of db user_id) (type_map_of db user_id)
      (periodEntries db user_id now p) (periodDates now p))
    (activeKeys db user_id) c.metric_key hk
  refine ⟨fun hg => ?_, fun target hg hty => ?_, fun target hg hty => ?_⟩ <;>
    rw [goalReached_eq, goalCounts, hdg]
  · simp [goalCountFor, dget_goal_map_none db user_id c hc hnd hg]
  · simp [goalCountFor, dget_goal_map_some db user_id c target hc hnd hg,
      dget_type_map db user_id c hc hnd, hty, goalMet]
  · simp [goalCountFor, dget_goal_map_some db user_id c target hc hnd hg,
      dget_type_map db user_id c hc hnd, hty, goalMet]

/-- C5 witness: at a concrete store (one active `"min"`-type metric with
target 3), the goal-reached entry is the count of days meeting the target. -/
theorem C5_goal_reached_witness :
    dget (((read_metrics 1 ⟨3, 100⟩ 15
          ⟨[], [], [⟨1, 1, "water", "min", some 3, true⟩]⟩).1 .daily).goalReached)
        "water" =
      some ((periodDates ⟨3, 100⟩ .daily).countP (fun day =>
        decide ((3 : ℚ) ≤
          daySum (periodEntries ⟨[], [], [⟨1, 1, "water", "min", some 3, true⟩]⟩
            1 ⟨3, 100⟩ .daily) "water" day))) :=
  (C5_goal_reached ⟨[], [], [⟨1, 1, "water", "min", some 3, true⟩]⟩ 1 ⟨3, 100⟩ 15
      .daily ⟨1, 1, "water", "min", some 3, true⟩ (by decide) (by decide)).2.2
    3 rfl rfl

/-! ## C7 — weekly daily totals -/

/-- An instant no later than another is on a day no later than the other's. -/
lemma leb_day_le {a b : DateTime} (h : DateTime.leb a b = true) :
    a.day ≤ b.day := by
  simp only [DateTime.leb, Bool.or_eq_true, Bool.and_eq_true, decide_eq_true_eq,
    beq_iff_eq] at h
  rcases h with h | ⟨h, _⟩ <;> omega

/-- Every entry fetched for a non-daily period is timestamped no later
than `now`. -/
lemma periodEntries_day_le (db : DB) (user_id : Nat) (now : DateTime)
    {e : MetricEntry} (he : e ∈ periodEntries db user_id now .weekly) :
    e.timestamp.day ≤ now.day :=
  leb_day_le (mem_get_user_metrics.mp he).2.2.2

/-- `getD` of a map over `List.range`. -/
lemma getD_map_range {α : Type} (f : Nat → α) (d : α) (n j : Nat) (hj : j < n) :
    ((List.range n).map f).getD j d = f j := by
  rw [List.getD_eq_getElem _ d (by simpa using hj), List.getElem_map,
    List.getElem_range]

/-- C7: only the weekly period carries a daily-totals table; for every
active metric (unique keys) it holds a 7-element sequence ordered
Monday..Sunday whose `i`-th element is the raw per-day sum of the week's
entries for that key (not divided by elapsed days), and days of the week
after today report 0. -/
theorem C7_weekly_daily_totals (db : DB) (user_id : Nat) (now : DateTime)
    (dom : Int) (c : UserMetricsConfig)
    (hc : c ∈ get_user_metrics_config_active db user_id) :
    (∀ q : Period, q ≠ .weekly →
        ((read_metrics user_id now dom db).1 q).daily_totals = none)
      ∧ ∃ L : List ℚ,
          dget ((((read_metrics user_id now dom db).1 .weekly).daily_totals).getD [])
              c.metric_key = some L
            ∧ L.length = 7
            ∧ (∀ i : Nat, i < 7 → L.getD i 0 =
                daySum (periodEntries db user_id now .weekly) c.metric_key
                  ((now.day - weekdayOf now.day) + i))
            ∧ (∀ i : Nat, i < 7 → now.day < (now.day - weekdayOf now.day) + i →
                L.getD i 0 = 0) := by
  have hk : c.metric_key ∈ activeKeys db user_id := List.mem_map_of_mem _ hc
  constructor
  · intro q hq
    cases q <;> first | rfl | exact absurd rfl hq
  · refine ⟨(periodDates now .weekly).map
      (fun day => daySum (periodEntries db user_id now .weekly) c.metric_key day),
      ?_, by simp [periodDates], ?_, ?_⟩
    · exact dget_map_self
        (fun k => (periodDates now .weekly).map
          (fun day => daySum (periodEntries db user_id now .weekly) k day))
        (activeKeys db user_id) c.metric_key hk
    · intro i hi
      rw [show periodDates now .weekly = (List.range 7).map
        (fun (j : Nat) => (now.day - weekdayOf now.day) + (j : Int)) from rfl]
      rw [List.map_map, getD_map_range _ 0 7 i hi]
      rfl
    · intro i hi hfut
      rw [show periodDates now .weekly = (List.range 7).map
        (fun (j : Nat) => (now.day - weekdayOf now.day) + (j : Int)) from rfl]
      rw [List.map_map, getD_map_range _ 0 7 i hi]
      show daySum (periodEntries db user_id now .weekly) c.metric_key
        ((now.day - weekdayOf now.day) + (i : Int)) = 0
      rw [daySum, List.filter_eq_nil_iff.mpr, List.map_nil, List.sum_nil]
      intro e he
      simp only [Bool.and_eq_true, beq_iff_eq, not_and, DateTime.date]
      intro _ hd
      have := periodEntries_day_le db user_id now he
      omega

/-- C7 witness: the weekly daily-totals facts at a concrete store (one
active metric, one entry on the current Thursday). -/
theorem C7_weekly_daily_totals_witness :
    ∃ L : List ℚ,
      dget ((((read_metrics 1 ⟨3, 100⟩ 15
            ⟨[⟨1, 1, "water", 1, ⟨3, 50⟩⟩], [],
             [⟨1, 1, "water", "min", some 3, true⟩]⟩).1 .weekly).daily_totals).getD [])
          "water" = some L
        ∧ L.length = 7
        ∧ (∀ i : Nat, i < 7 → L.getD i 0 =
            daySum (periodEntries ⟨[⟨1, 1, "water", 1, ⟨3, 50⟩⟩], [],
                [⟨1, 1, "water", "min", some 3, true⟩]⟩ 1 ⟨3, 100⟩ .weekly)
              "water" (((3 : Int) - weekdayOf 3) + i))
        ∧ (∀ i : Nat, i < 7 → (3 : Int) < ((3 : Int) - weekdayOf 3) + i →
            L.getD i 0 = 0) :=
  (C7_weekly_daily_totals
      ⟨[⟨1, 1, "water", 1, ⟨3, 50⟩⟩], [], [⟨1, 1, "water", "min", some 3, true⟩]⟩
      1 ⟨3, 100⟩ 15 ⟨1, 1, "water", "min", some 3, true⟩
      (by decide)).2

/-! ## C1 — average-per-day and the null-vs-zero rule -/

/-- The average table of a period, unfolded. -/
lemma average_values_eq (db : DB) (user_id : Nat) (now : DateTime) (dom : Int)
    (p : Period) :
    ((read_metrics user_id now dom db).1 p).average_values =
      avgPerDay (activeKeys db user_id)
        (periodSums (activeKeys db user_id) (periodEntries db user_id now p))
        (periodEntries db user_id now p) (elapsedDays now dom p) := rfl

/-- C1 (as stated, refuted): the claim says that a metric whose sum is zero
because it has no entries at all in the period reports `null`.  Concrete
input: user 1 has active metrics `"water"` and `"sleep"`, one water entry
today and no sleep entries whatsoever — the sleep average of the daily
period is still not `null`, because the code's emptiness test `not entries`
looks at the whole period's entry list, not at the metric's own entries. -/
theorem C1_counterexample :
    sumKey "sleep"
        (periodEntries ⟨[⟨1, 1, "water", 1, ⟨3, 100⟩⟩], [],
          [⟨1, 1, "water", "min", none, true⟩, ⟨2, 1, "sleep", "min", none, true⟩]⟩
          1 ⟨3, 100⟩ .daily) = 0
      ∧ (periodEntries ⟨[⟨1, 1, "water", 1, ⟨3, 100⟩⟩], [],
          [⟨1, 1, "water", "min", none, true⟩, ⟨2, 1, "sleep", "min", none, true⟩]⟩
          1 ⟨3, 100⟩ .daily).filter (fun e => e.metric_key == "sleep") = []
      ∧ dget (((read_metrics 1 ⟨3, 100⟩ 15
          ⟨[⟨1, 1, "water", 1, ⟨3, 100⟩⟩], [],
           [⟨1, 1, "water", "min", none, true⟩, ⟨2, 1, "sleep", "min", none, true⟩]⟩).1
            .daily).average_values) "sleep" ≠ some none := by
  refine ⟨by decide, by decide, by decide⟩

/-- C1 (amended): for every period and active metric key,
`averagePerDay[key] = sum[key] / elapsedDays` when `sum[key] != 0`; when
`sum[key] == 0` it is `null` if and only if the period had no fetched
entries AT ALL (for any metric key, active or not), and `0` otherwise —
the no-data test looks at the whole period's entry list, not at the
metric's own entries. -/
theorem C1_average_per_day (db : DB) (user_id : Nat) (now : DateTime)
    (dom : Int) (p : Period) (k : String) (hk : k ∈ activeKeys db user_id) :
    (sumKey k (periodEntries db user_id now p) ≠ 0 →
        dget (((read_metrics user_id now dom db).1 p).average_values) k =
          some (some (sumKey k (periodEntries db user_id now p) /
            (elapsedDays now dom p : ℚ))))
      ∧ (sumKey k (periodEntries db user_id now p) = 0 →
          periodEntries db user_id now p = [] →
          dget (((read_metrics user_id now dom db).1 p).average_values) k =
            some none)
      ∧ (sumKey k (periodEntries db user_id now p) = 0 →
          periodEntries db user_id now p ≠ [] →
          dget (((read_metrics user_id now dom db).1 p).average_values) k =
            some (some 0)) := by
  have hdg := dget_map_self
    (avgFor (periodSums (activeKeys db user_id) (periodEntries db user_id now p))
      (periodEntries db user_id now p) (elapsedDays now dom p))
    (activeKeys db user_id) k hk
  have hsum := dget_periodSums (activeKeys db user_id)
    (periodEntries db user_id now p) k hk
  refine ⟨fun h0 => ?_, fun h0 hemp => ?_, fun h0 hne => ?_⟩ <;>
    rw [average_values_eq, avgPerDay, hdg]
  · simp [avgFor, hsum, h0]
  · simp only [avgFor, hsum, h0]
    simp [hemp]
  · simp [avgFor, hsum, h0, List.isEmpty_iff, hne]

/-- C1 witness: the amended rule at a concrete store — the sleep metric
has sum 0 and the period has entries (for water), so sleep reports 0. -/
theorem C1_average_per_day_witness :
    dget (((read_metrics 1 ⟨3, 100⟩ 15
        ⟨[⟨1, 1, "water", 1, ⟨3, 100⟩⟩], [],
         [⟨1, 1, "water", "min", none, true⟩, ⟨2, 1, "sleep", "min", none, true⟩]⟩).1
          .daily).average_values) "sleep" = some (some 0) :=
  (C1_average_per_day
      ⟨[⟨1, 1, "water", 1, ⟨3, 100⟩⟩], [],
       [⟨1, 1, "water", "min", none, true⟩, ⟨2, 1, "sleep", "min", none, true⟩]⟩
      1 ⟨3, 100⟩ 15 .daily "sleep" (by decide)).2.2 (by decide) (by decide)

/-! ## C9 — entries with inactive or unknown keys are invisible -/

/-- Per-key per-day sums only depend on the multiset of entries. -/
lemma daySum_perm {l₁ l₂ : List MetricEntry} (h : List.Perm l₁ l₂)
    (k : String) (day : Int) : daySum l₁ k day = daySum l₂ k day :=
  ((h.filter _).map _).sum_eq

/-- Per-key sums only depend on the multiset of entries. -/
lemma sumKey_perm {l₁ l₂ : List MetricEntry} (h : List.Perm l₁ l₂)
    (k : String) : sumKey k l₁ = sumKey k l₂ :=
  ((h.filter _).map _).sum_eq

lemma daySum_append (l₁ l₂ : List MetricEntry) (k : String) (day : Int) :
    daySum (l₁ ++ l₂) k day = daySum l₁ k day + daySum l₂ k day := by
  simp [daySum, List.filter_append]

lemma sumKey_append (l₁ l₂ : List MetricEntry) (k : String) :
    sumKey k (l₁ ++ l₂) = sumKey k l₁ + sumKey k l₂ := by
  simp [sumKey, List.filter_append]

lemma daySum_sublist_single_ne (l : List MetricEntry) (e : MetricEntry)
    (k : String) (day : Int) (hne : e.metric_key ≠ k)
    (hsub : List.Sublist l [e]) : daySum l k day = 0 := by
  rcases List.sublist_singleton.mp hsub with rfl | rfl
  · rfl
  · have hfalse : (e.metric_key == k) = false := by simpa using hne
    simp [daySum, hfalse]

lemma sumKey_sublist_single_ne (l : List MetricEntry) (e : MetricEntry)
    (k : String) (hne : e.metric_key ≠ k)
    (hsub : List.Sublist l [e]) : sumKey k l = 0 := by
  rcases List.sublist_singleton.mp hsub with rfl | rfl
  · rfl
  · have hfalse : (e.metric_key == k) = false := by simpa using hne
    simp [sumKey, hfalse]

/-- Appending an entry with a different key changes no per-day sum. -/
lemma daySum_frame (db : DB) (user_id : Nat) (now : DateTime) (p : Period)
    (e : MetricEntry) (k : String) (hne : e.metric_key ≠ k) (day : Int) :
    daySum (periodEntries { db with entries := db.entries ++ [e] } user_id now p)
        k day = daySum (periodEntries db user_id now p) k day := by
  have h1 := get_user_metrics_perm (db.entries ++ [e]) user_id
    (periodStart now p) (fetchEnd now p)
  have h2 := get_user_metrics_perm db.entries user_id
    (periodStart now p) (fetchEnd now p)
  have e1 : periodEntries { db with entries := db.entries ++ [e] } user_id now p =
      get_user_metrics (db.entries ++ [e]) user_id (periodStart now p)
        (fetchEnd now p) := rfl
  have e2 : periodEntries db user_id now p =
      get_user_metrics db.entries user_id (periodStart now p) (fetchEnd now p) := rfl
  rw [e1, e2, daySum_perm h1, List.filter_append, daySum_append,
    daySum_sublist_single_ne _ e k day hne (List.filter_sublist _),
    daySum_perm h2.symm]
  ring

/-- Appending an entry with a different key changes no per-key sum. -/
lemma sumKey_frame (db : DB) (user_id : Nat) (now : DateTime) (p : Period)
    (e : MetricEntry) (k : String) (hne : e.metric_key ≠ k) :
    sumKey k (periodEntries { db with entries := db.entries ++ [e] } user_id now p)
      = sumKey k (periodEntries db user_id now p) := by
  have h1 := get_user_metrics_perm (db.entries ++ [e]) user_id
    (periodStart now p) (fetchEnd now p)
  have h2 := get_user_metrics_perm db.entries user_id
    (periodStart now p) (fetchEnd now p)
  have e1 : periodEntries { db with entries := db.entries ++ [e] } user_id now p =
      get_user_metrics (db.entries ++ [e]) user_id (periodStart now p)
        (fetchEnd now p) := rfl
  have e2 : periodEntries db user_id now p =
      get_user_metrics db.entries user_id (periodStart now p) (fetchEnd now p) := rfl
  rw [e1, e2, sumKey_perm h1, List.filter_append, sumKey_append,
    sumKey_sublist_single_ne _ e k hne (List.filter_sublist _),
    sumKey_perm h2.symm]
  ring

/-- C9: the per-metric sums, the weekly daily totals and the goal-reached
counts of every period depend only on entries whose key is in the user's
active configuration: appending an entry whose key is inactive or unknown
changes none of them. -/
theorem C9_inactive_key_frame (db : DB) (user_id : Nat) (now : DateTime)
    (dom : Int) (e : MetricEntry) (he : e.metric_key ∉ activeKeys db user_id)
    (p : Period) :
    periodSums (activeKeys db user_id)
        (periodEntries { db with entries := db.entries ++ [e] } user_id now p) =
      periodSums (activeKeys db user_id) (periodEntries db user_id now p)
      ∧ ((read_metrics user_id now dom
            { db with entries := db.entries ++ [e] }).1 p).daily_totals =
          ((read_metrics user_id now dom db).1 p).daily_totals
      ∧ ((read_metrics user_id now dom
            { db with entries := db.entries ++ [e] }).1 p).goalReached =
          ((read_metrics user_id now dom db).1 p).goalReached := by
  have hne : ∀ k ∈ activeKeys db user_id, e.metric_key ≠ k := by
    intro k hkmem hkey
    exact he (hkey ▸ hkmem)
  refine ⟨?_, ?_, ?_⟩
  · rw [periodSums_eq, periodSums_eq]
    apply List.map_congr_left
    intro k hkmem
    rw [sumKey_frame db user_id now p e k (hne k hkmem)]
  · cases p <;> try rfl
    show some (dailyTotals (activeKeys db user_id)
        (periodEntries { db with entries := db.entries ++ [e] } user_id now .weekly)
        (periodDates now .weekly)) =
      some (dailyTotals (activeKeys db user_id)
        (periodEntries db user_id now .weekly) (periodDates now .weekly))
    congr 1
    apply List.map_congr_left
    intro k hkmem
    congr 1
    apply List.map_congr_left
    intro day _
    exact daySum_frame db user_id now .weekly e k (hne k hkmem) day
  · show goalCounts (activeKeys db user_id) (goal_map_of db user_id)
        (type_map_of db user_id)
        (periodEntries { db with entries := db.entries ++ [e] } user_id now p)
        (periodDates now p) =
      goalCounts (activeKeys db user_id) (goal_map_of db user_id)
        (type_map_of db user_id) (periodEntries db user_id now p)
        (periodDates now p)
    apply List.map_congr_left
    intro k hkmem
    rw [goalCountFor, goalCountFor]
    cases dget (goal_map_of db user_id) k with
    | none => rfl
    | some target =>
        apply congrArg
        apply List.countP_congr
        intro day _
        rw [daySum_frame db user_id now p e k (hne k hkmem) day]

/-- C9 witness: at a concrete store (active metric `"water"`), appending an
entry with the inactive key `"steps"` leaves the daily goal-reached table
unchanged. -/
theorem C9_inactive_key_frame_witness :
    ((read_metrics 1 ⟨3, 100⟩ 15
        { (⟨[⟨1, 1, "water", 1, ⟨3, 50⟩⟩], [],
            [⟨1, 1, "water", "min", some 3, true⟩]⟩ : DB) with
          entries := [⟨1, 1, "water", 1, ⟨3, 50⟩⟩] ++
            [⟨2, 1, "steps", 1, ⟨3, 60⟩⟩] }).1 .daily).goalReached =
      ((read_metrics 1 ⟨3, 100⟩ 15
        ⟨[⟨1, 1, "water", 1, ⟨3, 50⟩⟩], [],
         [⟨1, 1, "water", "min", some 3, true⟩]⟩).1 .daily).goalReached :=
  (C9_inactive_key_frame
      ⟨[⟨1, 1, "water", 1, ⟨3, 50⟩⟩], [], [⟨1, 1, "water", "min", some 3, true⟩]⟩
      1 ⟨3, 100⟩ 15 ⟨2, 1, "steps", 1, ⟨3, 60⟩⟩ (by decide) .daily).2.2

/-! ## C3 — goal upsert invariants -/

/-- `find?` for the selection predicate after an in-place update of the
first selected row: the updated row is found (for an update that keeps the
predicate's verdict). -/
lemma find?_updateFirst_self {α : Type} (p : α → Bool) (f : α → α)
    (hpf : ∀ x, p (f x) = p x) :
    ∀ l : List α, (updateFirst p f l).find? p = (l.find? p).map f
  | [] => rfl
  | a :: t => by
    by_cases hp : p a = true
    · simp [updateFirst, hp, List.find?_cons, hpf a]
    · have hp' : p a = false := by simpa using hp
      simp [updateFirst, hp', List.find?_cons,
        find?_updateFirst_self p f hpf t]

/-- `find?` for a predicate disjoint from the selection predicate is
untouched by the in-place update. -/
lemma find?_updateFirst_other {α : Type} (p q : α → Bool) (f : α → α)
    (hq : ∀ x, q (f x) = q x) (hpq : ∀ x, p x = true → q x = false) :
    ∀ l : List α, (updateFirst p f l).find? q = l.find? q
  | [] => rfl
  | a :: t => by
    by_cases hp : p a = true
    · have hqa : q a = false := hpq a hp
      have hqfa : q (f a) = false := by rw [hq a]; exact hqa
      simp [updateFirst, hp, List.find?_cons, hqa, hqfa]
    · have hp' : p a = false := by simpa using hp
      cases hqa : q a with
      | true => simp [updateFirst, hp', List.find?_cons, hqa]
      | false =>
          simp [updateFirst, hp', List.find?_cons, hqa,
            find?_updateFirst_other p q f hq hpq t]

/-- Filter lengths are untouched by the in-place update (for a filter
predicate the update preserves). -/
lemma length_filter_updateFirst {α : Type} (p q : α → Bool) (f : α → α)
    (hq : ∀ x, q (f x) = q x) :
    ∀ l : List α, ((updateFirst p f l).filter q).length = (l.filter q).length
  | [] => rfl
  | a :: t => by
    by_cases hp : p a = true
    · simp only [updateFirst, hp, if_true, List.filter_cons, hq a]
      cases q a <;> simp
    · have hp' : p a = false := by simpa using hp
      simp only [updateFirst, hp', Bool.false_eq_true, if_false, List.filter_cons]
      cases q a <;> simp [length_filter_updateFirst p q f hq t]

/-- Every row of the store keeps its id through the in-place update. -/
lemma mem_updateFirst_id (p : Goal → Bool) (f : Goal → Goal)
    (hid : ∀ x, (f x).id = x.id) :
    ∀ (l : List Goal) (g : Goal), g ∈ l →
      ∃ g' ∈ updateFirst p f l, g'.id = g.id
  | [], g, hg => absurd hg (List.not_mem_nil _)
  | a :: t, g, hg => by
    by_cases hp : p a = true
    · rw [updateFirst, if_pos hp]
      rcases List.mem_cons.mp hg with rfl | hgt
      · exact ⟨f g, List.mem_cons_self _ _, hid g⟩
      · exact ⟨g, List.mem_cons_of_mem _ hgt, rfl⟩
    · rw [updateFirst, if_neg hp]
      rcases List.mem_cons.mp hg with rfl | hgt
      · exact ⟨g, List.mem_cons_self _ _, rfl⟩
      · obtain ⟨g', hg', hid'⟩ := mem_updateFirst_id p f hid t g hgt
        exact ⟨g', List.mem_cons_of_mem _ hg', hid'⟩

/-- A user's sequence of goal-setting operations (`POST /api/goals` calls),
each an upsert of (metric key, target value) at some instant. -/
def applyUpserts (user_id : Nat) (ops : List (String × ℚ × DateTime))
    (db : DB) : DB :=
  ops.foldl (fun d o => (upsert_goal user_id o.1 o.2.1 o.2.2 d).2) db

/-- The target value of the goal row the store holds for (user, key) —
the effective goal. -/
def effTarget (db : DB) (user_id : Nat) (k : String) : Option ℚ :=
  (db.goals.find? (fun g => g.user_id == user_id && g.metric_key == k)).map
    (fun g => g.target_value)

/-- Number of goal rows the store holds for (user, key). -/
def goalRowCount (db : DB) (user_id : Nat) (k : String) : Nat :=
  (db.goals.filter (fun g => g.user_id == user_id && g.metric_key == k)).length

/-- The most recently set target for a key in a sequence of operations. -/
def lastUpsert (ops : List (String × ℚ × DateTime)) (k : String) : Option ℚ :=
  (ops.reverse.find? (fun o => o.1 == k)).map (fun o => o.2.1)

/-- `effTarget` on an explicitly built store. -/
lemma effTarget_mk (entries : List MetricEntry) (goals : List Goal)
    (configs : List UserMetricsConfig) (user_id : Nat) (k : String) :
    effTarget ⟨entries, goals, configs⟩ user_id k =
      (goals.find? (fun g => g.user_id == user_id && g.metric_key == k)).map
        (fun g => g.target_value) := rfl

/-- `goalRowCount` on an explicitly built store. -/
lemma goalRowCount_mk (entries : List MetricEntry) (goals : List Goal)
    (configs : List UserMetricsConfig) (user_id : Nat) (k : String) :
    goalRowCount ⟨entries, goals, configs⟩ user_id k =
      (goals.filter (fun g => g.user_id == user_id && g.metric_key == k)).length :=
  rfl

/-- Effective targets after one upsert: the upserted key now carries the
new value; every other key's target is untouched. -/
lemma effTarget_upsert (db : DB) (user_id : Nat) (k : String) (v : ℚ)
    (t : DateTime) (k' : String) :
    effTarget (upsert_goal user_id k v t db).2 user_id k' =
      if k' = k then some v else effTarget db user_id k' := by
  cases hf : db.goals.find?
      (fun g => g.user_id == user_id && g.metric_key == k) with
  | some g =>
      simp only [upsert_goal, hf]
      by_cases hk : k' = k
      · subst hk
        rw [if_pos rfl, effTarget_mk]
        rw [find?_updateFirst_self
          (fun g => g.user_id == user_id && g.metric_key == k')
          (fun g => { g with target_value := v, created_at := t })
          (fun x => rfl) db.goals, hf]
        rfl
      · rw [if_neg hk, effTarget_mk, effTarget]
        rw [find?_updateFirst_other
          (fun g => g.user_id == user_id && g.metric_key == k)
          (fun g => g.user_id == user_id && g.metric_key == k')
          (fun g => { g with target_value := v, created_at := t })
          (fun x => rfl) ?_ db.goals]
        intro x hx
        simp only [Bool.and_eq_true, beq_iff_eq] at hx
        simp only [Bool.and_eq_false_iff, beq_eq_false_iff_ne, ne_eq]
        right
        rw [hx.2]
        exact fun h => hk h.symm
  | none =>
      simp only [upsert_goal, hf, create_goal]
      by_cases hk : k' = k
      · subst hk
        rw [if_pos rfl, effTarget_mk, List.find?_append, hf]
        simp
      · rw [if_neg hk, effTarget_mk, effTarget, List.find?_append]
        have hnone : ([(⟨freshGoalId db.goals, user_id, k, v, t⟩ : Goal)].find?
            (fun g => g.user_id == user_id && g.metric_key == k')) = none := by
          have hne : ((⟨freshGoalId db.goals, user_id, k, v, t⟩ : Goal).metric_key
              == k') = false := by
            simpa using fun h => hk h.symm
          simp [List.find?_singleton, hne]
        rw [hnone, Option.or_none]

/-- Row counts after one upsert: still at most one row per (user, key). -/
lemma goalRowCount_upsert_le (db : DB) (user_id : Nat) (k : String) (v : ℚ)
    (t : DateTime) (hinv : ∀ key, goalRowCount db user_id key ≤ 1) :
    ∀ key, goalRowCount (upsert_goal user_id k v t db).2 user_id key ≤ 1 := by
  intro key
  cases hf : db.goals.find?
      (fun g => g.user_id == user_id && g.metric_key == k) with
  | some g =>
      simp only [upsert_goal, hf]
      rw [goalRowCount_mk]
      rw [length_filter_updateFirst
        (fun g => g.user_id == user_id && g.metric_key == k)
        (fun g => g.user_id == user_id && g.metric_key == key)
        (fun g => { g with target_value := v, created_at := t })
        (fun x => rfl) db.goals]
      exact hinv key
  | none =>
      simp only [upsert_goal, hf, create_goal]
      rw [goalRowCount_mk, List.filter_append, List.length_append]
      by_cases hk : key = k
      · subst hk
        have h0 : (db.goals.filter
            (fun g => g.user_id == user_id && g.metric_key == key)).length = 0 := by
          rw [List.filter_eq_nil_iff.mpr (List.find?_eq_none.mp hf)]
          rfl
        rw [h0]
        simp
      · have hne : ((⟨freshGoalId db.goals, user_id, k, v, t⟩ : Goal).metric_key
            == key) = false := by
          simpa using fun h => hk h.symm
        have h1 : (([(⟨freshGoalId db.goals, user_id, k, v, t⟩ : Goal)]).filter
            (fun g => g.user_id == user_id && g.metric_key == key)).length = 0 := by
          simp [hne]
        rw [h1]
        simpa using hinv key

/-- Row ids survive one upsert. -/
lemma ids_upsert (db : DB) (user_id : Nat) (k : String) (v : ℚ) (t : DateTime) :
    ∀ g ∈ db.goals,
      ∃ g' ∈ (upsert_goal user_id k v t db).2.goals, g'.id = g.id := by
  intro g hg
  cases hf : db.goals.find?
      (fun g => g.user_id == user_id && g.metric_key == k) with
  | some g0 =>
      simp only [upsert_goal, hf]
      exact mem_updateFirst_id
        (fun g => g.user_id == user_id && g.metric_key == k)
        (fun g => { g with target_value := v, created_at := t })
        (fun x => rfl) db.goals g hg
  | none =>
      simp only [upsert_goal, hf, create_goal]
      exact ⟨g, List.mem_append_left _ hg, rfl⟩

/-- Effective targets after a whole sequence of upserts: the most recently
set value wins; untouched keys keep their previous target. -/
lemma effTarget_applyUpserts (user_id : Nat) :
    ∀ (ops : List (String × ℚ × DateTime)) (db : DB) (k : String),
      effTarget (applyUpserts user_id ops db) user_id k =
        match lastUpsert ops k with
        | some v => some v
        | none => effTarget db user_id k
  | [], db, k => by simp [applyUpserts, lastUpsert]
  | o :: rest, db, k => by
    rw [applyUpserts, List.foldl_cons]
    have ih := effTarget_applyUpserts user_id rest
      ((upsert_goal user_id o.1 o.2.1 o.2.2 db).2) k
    rw [applyUpserts] at ih
    rw [ih]
    cases hl : lastUpsert rest k with
    | some v =>
        have hfr : (rest.reverse.find? (fun o => o.1 == k)).isSome = true := by
          rw [lastUpsert] at hl
          cases hfo : rest.reverse.find? (fun o => o.1 == k) with
          | some o' => rfl
          | none => rw [hfo] at hl; cases hl
        have : lastUpsert (o :: rest) k = some v := by
          rw [lastUpsert, List.reverse_cons, List.find?_append]
          rw [lastUpsert] at hl
          cases hfo : rest.reverse.find? (fun o => o.1 == k) with
          | some o' => rw [hfo] at hl; simpa using hl
          | none => rw [hfo] at hfr; cases hfr
        rw [this]
    | none =>
        have hfo : rest.reverse.find? (fun o => o.1 == k) = none := by
          rw [lastUpsert] at hl
          cases hfo : rest.reverse.find? (fun o => o.1 == k) with
          | some o' => rw [hfo] at hl; cases hl
          | none => rfl
        rw [effTarget_upsert]
        by_cases hk : k = o.1
        · have hfind : ([o].find? (fun o => o.1 == k)) = some o := by
            simp [List.find?_singleton, hk.symm]
          have : lastUpsert (o :: rest) k = some o.2.1 := by
            rw [lastUpsert, List.reverse_cons, List.find?_append, hfo,
              Option.none_or, hfind]
            rfl
          rw [this, if_pos hk]
        · have hfind : ([o].find? (fun o => o.1 == k)) = none := by
            have : (o.1 == k) = false := by
              simpa using fun h => hk h.symm
            simp [List.find?_singleton, this]
          have : lastUpsert (o :: rest) k = none := by
            rw [lastUpsert, List.reverse_cons, List.find?_append, hfo,
              Option.none_or, hfind]
            rfl
          rw [this, if_neg hk]

/-- The at-most-one-row invariant survives a whole sequence of upserts. -/
lemma goalRowCount_applyUpserts (user_id : Nat) :
    ∀ (ops : List (String × ℚ × DateTime)) (db : DB),
      (∀ key, goalRowCount db user_id key ≤ 1) →
      ∀ key, goalRowCount (applyUpserts user_id ops db) user_id key ≤ 1
  | [], db, hinv => hinv
  | o :: rest, db, hinv => by
    rw [applyUpserts, List.foldl_cons]
    exact goalRowCount_applyUpserts user_id rest _
      (goalRowCount_upsert_le db user_id o.1 o.2.1 o.2.2 hinv)

/-- Row ids survive a whole sequence of upserts. -/
lemma ids_applyUpserts (user_id : Nat) :
    ∀ (ops : List (String × ℚ × DateTime)) (db : DB) (g : Goal), g ∈ db.goals →
      ∃ g' ∈ (applyUpserts user_id ops db).goals, g'.id = g.id
  | [], _, g, hg => ⟨g, hg, rfl⟩
  | o :: rest, db, g, hg => by
    rw [applyUpserts, List.foldl_cons]
    obtain ⟨g1, hg1, hid1⟩ := ids_upsert db user_id o.1 o.2.1 o.2.2 g hg
    obtain ⟨g', hg', hid'⟩ := ids_applyUpserts user_id rest _ g1 hg1
    exact ⟨g', hg', by rw [hid', hid1]⟩

/-- C3 (as stated, refuted): the claim says every goal record ever created
for a key still exists in the store — superseded goals are never deleted,
preserving audit history.  But `upsert_goal` overwrites the existing row's
`target_value` and `created_at` in place (crud.py lines 228-234).  Concrete
input: on an empty store, user 1 sets water = 2 and then water = 5.  The
record created by the first operation is present after it, but after the
second operation that record exists nowhere — no row with the superseded
target 2 remains in the store. -/
theorem C3_counterexample :
    (⟨0, 1, "water", 2, ⟨0, 0⟩⟩ : Goal) ∈
        (applyUpserts 1 [("water", 2, ⟨0, 0⟩)] ⟨[], [], []⟩).goals
      ∧ (⟨0, 1, "water", 2, ⟨0, 0⟩⟩ : Goal) ∉
          (applyUpserts 1 [("water", 2, ⟨0, 0⟩), ("water", 5, ⟨1, 0⟩)]
            ⟨[], [], []⟩).goals
      ∧ (∀ g ∈ (applyUpserts 1 [("water", 2, ⟨0, 0⟩), ("water", 5, ⟨1, 0⟩)]
          ⟨[], [], []⟩).goals, g.target_value ≠ 2) := by
  refine ⟨by decide, by decide, by decide⟩

/-- C3 (amended): starting from a store with at most one goal row per key
for the user, after any sequence of goal-setting operations (a) at most
one goal row per key is in the store — the effective goal; (b) the
effective target of every key set during the sequence is the most recently
set value, and keys never set keep their previous target; (c) no goal ROW
is ever deleted — every row present at any point of the sequence survives,
with its id, to the final store — but a superseded goal is overwritten in
place on that surviving row, so its old target value and timestamp are not
preserved (no audit history). -/
theorem C3_goal_upsert_history (db : DB) (user_id : Nat)
    (ops : List (String × ℚ × DateTime))
    (hinv : ∀ key, goalRowCount db user_id key ≤ 1) :
    (∀ key, goalRowCount (applyUpserts user_id ops db) user_id key ≤ 1)
      ∧ (∀ key v, lastUpsert ops key = some v →
          effTarget (applyUpserts user_id ops db) user_id key = some v)
      ∧ (∀ key, lastUpsert ops key = none →
          effTarget (applyUpserts user_id ops db) user_id key =
            effTarget db user_id key)
      ∧ (∀ i : Nat, ∀ g ∈ (applyUpserts user_id (ops.take i) db).goals,
          ∃ g' ∈ (applyUpserts user_id ops db).goals, g'.id = g.id) := by
  refine ⟨goalRowCount_applyUpserts user_id ops db hinv, ?_, ?_, ?_⟩
  · intro key v hl
    rw [effTarget_applyUpserts user_id ops db key, hl]
  · intro key hl
    rw [effTarget_applyUpserts user_id ops db key, hl]
  · intro i g hg
    have hsplit : applyUpserts user_id ops db =
        applyUpserts user_id (ops.drop i) (applyUpserts user_id (ops.take i) db) := by
      rw [applyUpserts, applyUpserts, applyUpserts, ← List.foldl_append,
        List.take_append_drop]
    rw [hsplit]
    exact ids_applyUpserts user_id (ops.drop i) _ g hg

/-- C3 witness: two upserts for `"water"` and one for `"sleep"` on an empty
store — afterwards each key has at most one row and `"water"`'s effective
target is the most recently set value 5. -/
theorem C3_goal_upsert_history_witness :
    (∀ key, goalRowCount
        (applyUpserts 1 [("water", 2, ⟨0, 0⟩), ("sleep", 8, ⟨1, 0⟩),
          ("water", 5, ⟨2, 0⟩)] ⟨[], [], []⟩) 1 key ≤ 1)
      ∧ effTarget
          (applyUpserts 1 [("water", 2, ⟨0, 0⟩), ("sleep", 8, ⟨1, 0⟩),
            ("water", 5, ⟨2, 0⟩)] ⟨[], [], []⟩) 1 "water" = some 5 :=
  ⟨(C3_goal_upsert_history ⟨[], [], []⟩ 1
      [("water", 2, ⟨0, 0⟩), ("sleep", 8, ⟨1, 0⟩), ("water", 5, ⟨2, 0⟩)]
      (fun key => by simp [goalRowCount])).1,
   (C3_goal_upsert_history ⟨[], [], []⟩ 1
      [("water", 2, ⟨0, 0⟩), ("sleep", 8, ⟨1, 0⟩), ("water", 5, ⟨2, 0⟩)]
      (fun key => by simp [goalRowCount])).2.1 "water" 5 (by decide)⟩

end LifeStats
